import Mathlib

/-!
Shallow embedding of the planning-poker room actor (`RoomDO`) from
`src/unnamed/part_011` (the newest room-actor variant, the one with the
host-election engine; the claims all cite this file).

Modelling conventions, matching the JavaScript semantics of the source:

* A JS `Record<string, T>` is modelled as an insertion-ordered association
  list `List (String × T)`; `Object.values` / `Object.entries` iterate in
  insertion order for non-array-index string keys.  All records keyed by
  participant ids use UUID-shaped keys (never array-index-like strings), so
  insertion order is the JS enumeration order for them.  The one record keyed
  by vote strings (`voteCounts` in `updateConsensusStats`) can contain
  array-index-like keys such as "5"; for it we reproduce the JS enumeration
  order (integer-like keys first, ascending) with `jsEntries`.
* `Date.now()` and every random choice (`crypto.randomUUID`, `randomFrom`
  over the message-template arrays, `pickUniqueIdentity`) are oracle inputs
  supplied inside each message; the actor is otherwise deterministic.  The
  several `Date.now()` calls inside one handler are modelled as one `now`
  per inbound message (they only feed chat timestamps and the vote clock).
* JS string truthiness (`x || y`, `if (p.vote)`) treats the empty string as
  falsy; `jsStr` normalises an `Option String` accordingly.
* `vote` values, chat texts, names, emojis and colors are opaque `String`s,
  numeric vote values are `Rat` (the scale contains `.5`), timestamps are
  `Nat` and vote latencies `Int` (JS subtraction of numbers).
* Broadcasts and `ws.send` are outputs, not state; the state-relevant part
  of the `joined` bootstrap reply is reproduced by `joinResponse`.
-/

namespace Room

/-- JS string truthiness on a nullable string: `undefined`/`null`/`""` are
falsy (used for `requestedId && ...`, `requestedEmoji || ...`,
`state.votes[id] || null`, `p.vote ? ... : ...`). -/
def jsStr (o : Option String) : Option String :=
  match o with
  | some "" => none
  | o => o

/-- Lookup in a JS-object-as-assoc-list (`obj[k]`). -/
def rlookup {α : Type} : List (String × α) → String → Option α
  | [], _ => none
  | e :: rest, k => if e.1 == k then some e.2 else rlookup rest k

/-- JS `obj[k] = v`: update the (unique) existing entry in place, else append
a new entry at the end (insertion order). -/
def rset {α : Type} : List (String × α) → String → α → List (String × α)
  | [], k, v => [(k, v)]
  | e :: rest, k, v => if e.1 == k then (k, v) :: rest else e :: rset rest k v

/-- JS `delete obj[k]`. -/
def rdelete {α : Type} (l : List (String × α)) (k : String) : List (String × α) :=
  l.filter (fun e => e.1 != k)

/-- JS `Object.values(obj)` (insertion order for UUID-like keys). -/
def rvalues {α : Type} (l : List (String × α)) : List α :=
  l.map (·.2)

/-- Numeric value of an all-digit string (0 on other input). -/
def digitsVal (s : String) : Nat :=
  s.data.foldl (fun n c => n * 10 + (c.toNat - 48)) 0

/-- A candidate JS object key enumerates before insertion-ordered keys iff it
is a canonical array index: digits only, no leading zero except "0" itself,
and numerically below 2^32 - 1. -/
def isArrayIndexKey (s : String) : Bool :=
  (!s.data.isEmpty) && s.data.all (fun c => 48 ≤ c.toNat && c.toNat ≤ 57) &&
    (!(s.data.head? == some '0') || s == "0") && digitsVal s < 4294967295

/-- Stable insertion sort by a `Nat` key, ascending (JS `Array.sort` with a
numeric comparator is stable). -/
def insertByKey {α : Type} (key : α → Nat) (x : α) : List α → List α
  | [] => [x]
  | y :: rest => if key y ≤ key x then y :: insertByKey key x rest else x :: y :: rest

def sortByKey {α : Type} (key : α → Nat) : List α → List α
  | [] => []
  | x :: rest => insertByKey key x (sortByKey key rest)

/-- JS `Object.entries` enumeration order for a record that may hold
array-index-like keys: integer-like keys first in ascending numeric order,
then the remaining keys in insertion order. -/
def jsEntries (l : List (String × Nat)) : List (String × Nat) :=
  sortByKey (fun e => digitsVal e.1) (l.filter (fun e => isArrayIndexKey e.1))
    ++ l.filter (fun e => !isArrayIndexKey e.1)

structure Participant where
  id : String
  name : String
  emoji : String
  color : String
  vote : Option String
  left : Bool
  joinedAt : Nat
deriving Repr, DecidableEq

structure ChatMessage where
  id : String
  participantId : String
  name : String
  emoji : String
  color : String
  text : String
  timestamp : Nat
deriving Repr, DecidableEq

structure ParticipantStats where
  totalVotes : Nat
  numericVotes : List Rat
  chaosVotes : Nat
  voteTimesMs : List Int
  consensusCount : Nat
  participatedRounds : Nat
deriving Repr, DecidableEq

structure SessionStats where
  sessionStartTime : Nat
  roundStartTime : Nat
  yahtzeeCount : Nat
  participantStats : List (String × ParticipantStats)
deriving Repr, DecidableEq

structure HostElection where
  candidates : List String
  votes : List (String × List String)
  startedAt : Nat
deriving Repr, DecidableEq

structure RoomState where
  participants : List (String × Participant)
  votes : List (String × String)
  revealed : Bool
  hostId : Option String
  roundNumber : Nat
  chat : List ChatMessage
  stats : SessionStats
  hostElection : Option HostElection
deriving Repr, DecidableEq

def CHAOS_VOTES : List String := ["?", "☕", "🦆"]

def NUMERIC_VOTE_VALUES : List (String × Rat) :=
  [(".5", (1 : Rat) / 2), ("1", 1), ("2", 2), ("3", 3), ("5", 5),
   ("8", 8), ("13", 13), ("20", 20), ("40", 40), ("100", 100)]

def initParticipantStats : ParticipantStats :=
  { totalVotes := 0, numericVotes := [], chaosVotes := 0, voteTimesMs := [],
    consensusCount := 0, participatedRounds := 0 }

/-- The default `RoomState` built by `loadState` when durable storage is
empty. -/
def initialState (now : Nat) : RoomState :=
  { participants := [], votes := [], revealed := false, hostId := none,
    roundNumber := 1, chat := [],
    stats := { sessionStartTime := now, roundStartTime := now,
               yahtzeeCount := 0, participantStats := [] },
    hostElection := none }

def activeParticipants (s : RoomState) : List Participant :=
  (rvalues s.participants).filter (fun p => !p.left)

/-- An oracle value for one system chat message: the random uuid and the
text produced by `randomFrom(TEMPLATES).replace(...)`. -/
structure Rand where
  id : String
  text : String
deriving Repr, DecidableEq

def sysMsg (r : Rand) (emoji color : String) (now : Nat) : ChatMessage :=
  { id := r.id, participantId := "system", name := "System", emoji := emoji,
    color := color, text := r.text, timestamp := now }

/-- `state.chat.push(m)` followed by the 100-entry cap
(`state.chat = state.chat.slice(-100)` when the length exceeds 100). -/
def pushChat (chat : List ChatMessage) (m : ChatMessage) : List ChatMessage :=
  let c := chat ++ [m]
  if 100 < c.length then c.drop (c.length - 100) else c

/-- `state.chat.slice(-n)`: the most recent `n` entries. -/
def takeLast {α : Type} (n : Nat) (l : List α) : List α :=
  l.drop (l.length - n)

/-- `if (!stats.participantStats[pid]) stats.participantStats[pid] = initParticipantStats()`. -/
def getOrInitStats (ps : List (String × ParticipantStats)) (pid : String) :
    List (String × ParticipantStats) :=
  if (rlookup ps pid).isSome then ps else rset ps pid initParticipantStats

/-- Initialise the entry if missing, then mutate it in place. -/
def updStats (ps : List (String × ParticipantStats)) (pid : String)
    (f : ParticipantStats → ParticipantStats) : List (String × ParticipantStats) :=
  let ps := getOrInitStats ps pid
  match rlookup ps pid with
  | some st => rset ps pid (f st)
  | none => ps

/-- The `voteCounts` record of `updateConsensusStats`: keyed by vote string,
built over the active participants in order, skipping falsy votes
(`if (p.vote)`). -/
def voteCountsOf (active : List Participant) : List (String × Nat) :=
  active.foldl
    (fun acc p =>
      match jsStr p.vote with
      | some v => rset acc v ((rlookup acc v).getD 0 + 1)
      | none => acc)
    []

/-- The mode scan of `updateConsensusStats`: walk `Object.entries(voteCounts)`
(JS enumeration order) keeping the strictly largest count. -/
def consensusVoteOf (active : List Participant) : Option String :=
  (jsEntries (voteCountsOf active)).foldl
    (fun (acc : Nat × Option String) e =>
      if acc.1 < e.2 then (e.2, some e.1) else acc)
    (0, none) |>.2

/-- `updateConsensusStats`: bump `consensusCount` for each active participant
whose vote equals the consensus vote (JS `===`, so `null === null` counts). -/
def updateConsensusStats (ps : List (String × ParticipantStats))
    (active : List Participant) : List (String × ParticipantStats) :=
  let consensus := consensusVoteOf active
  active.foldl
    (fun ps p =>
      let ps := getOrInitStats ps p.id
      if p.vote == consensus then
        updStats ps p.id (fun st => { st with consensusCount := st.consensusCount + 1 })
      else ps)
    ps

/-- The reveal-time classification loop: per active participant, a truthy
final vote is counted as chaos if in `CHAOS_VOTES`, else pushed to
`numericVotes` if on the numeric scale. -/
def trackRevealStats (ps : List (String × ParticipantStats))
    (active : List Participant) : List (String × ParticipantStats) :=
  active.foldl
    (fun ps p =>
      let ps := getOrInitStats ps p.id
      match jsStr p.vote with
      | some v =>
          if CHAOS_VOTES.contains v then
            updStats ps p.id (fun st => { st with chaosVotes := st.chaosVotes + 1 })
          else
            match rlookup NUMERIC_VOTE_VALUES v with
            | some q => updStats ps p.id (fun st => { st with numericVotes := st.numericVotes ++ [q] })
            | none => ps
      | none => ps)
    ps

/-- Oracle values for the chat messages a reveal can emit. -/
structure RevealEnv where
  revealMsg : Rand
  consensusMsg : Rand
deriving Repr, DecidableEq

/-- `checkAndReveal` (also the identical logic inlined at the end of the
`vote` handler, which runs with `state.revealed` known false): if every
active participant has a non-null vote and at least one is active, set
`revealed`, append the reveal announcement, and when 2+ are active update
consensus stats, classify final votes, and on unanimity bump `yahtzeeCount`
and announce. -/
def checkAndReveal (s : RoomState) (renv : RevealEnv) (now : Nat) : RoomState :=
  if s.revealed then s
  else
    let active := activeParticipants s
    if active.all (fun p => p.vote.isSome) && decide (0 < active.length) then
      let s := { s with revealed := true }
      let s := { s with chat := pushChat s.chat (sysMsg renv.revealMsg "🎭" "#F59E0B" now) }
      if 2 ≤ active.length then
        let votes := active.map (·.vote)
        let v0 := votes.head?.getD none
        let allSame := votes.all (fun v => v == v0)
        let ps := updateConsensusStats s.stats.participantStats active
        let ps := trackRevealStats ps active
        let s := { s with stats := { s.stats with participantStats := ps } }
        if allSame && v0.isSome then
          let s := { s with stats := { s.stats with yahtzeeCount := s.stats.yahtzeeCount + 1 } }
          { s with chat := pushChat s.chat (sysMsg renv.consensusMsg "🎯" "#22C55E" now) }
        else s
      else s
    else s

/-- `vote.rankings.find(id => remainingCandidates.has(id))`. -/
def firstChoice (remaining : List String) (rankings : List String) : Option String :=
  rankings.find? (fun id => remaining.contains id)

/-- First-choice tally of a single candidate (the value `counts[c]` ends
with in one `resolveElection` round). -/
def tallyOf (remaining : List String) (ballots : List (String × List String))
    (c : String) : Nat :=
  (ballots.filter (fun b => firstChoice remaining b.2 == some c)).length

/-- First-choice tallies of one IRV round.  The `counts` record is seeded
with every remaining candidate (insertion order), so its entries are exactly
the remaining candidates in order, each with the number of ballots whose
first remaining choice is that candidate. -/
def tallies (remaining : List String) (ballots : List (String × List String)) :
    List (String × Nat) :=
  remaining.map (fun c => (c, tallyOf remaining ballots c))

def joinedAtOf (parts : List (String × Participant)) (id : String) : Nat :=
  ((rlookup parts id).map (·.joinedAt)).getD 0

/-- The elimination scan: track `(minVotes, toEliminate)` over the count
entries, starting from `(Infinity, null)`; a strictly smaller count wins, a
tied count replaces the current pick when its candidate joined later. -/
def elimFold (parts : List (String × Participant)) (entries : List (String × Nat)) :
    Option String :=
  (entries.foldl
    (fun (acc : Option Nat × Option String) e =>
      match acc.1 with
      | none => (some e.2, some e.1)
      | some m =>
        if e.2 < m then (some e.2, some e.1)
        else if e.2 = m then
          match acc.2 with
          | some t =>
              if joinedAtOf parts t < joinedAtOf parts e.1 then (some m, some e.1) else acc
          | none => acc
        else acc)
    (none, none)).2

inductive IRVOutcome where
  | winner (id : String)
  | leftover (remaining : List String)
deriving Repr, DecidableEq

/-- The `while (remainingCandidates.size > 1)` loop of `resolveElection`,
with explicit fuel (each pass eliminates exactly one candidate, so fuel
`remaining.length` always suffices; the source's `break` safety valve is the
`none` elimination branch).  Majority test: `count > totalVotes / 2` over JS
real division, i.e. `totalVotes < 2 * count`. -/
def irvLoop (parts : List (String × Participant)) :
    Nat → List String → List (String × List String) → IRVOutcome
  | 0, remaining, _ => .leftover remaining
  | fuel + 1, remaining, ballots =>
    if remaining.length ≤ 1 then .leftover remaining
    else
      let counts := tallies remaining ballots
      let total := ballots.length
      match counts.find? (fun e => decide (total < 2 * e.2)) with
      | some e => .winner e.1
      | none =>
        match elimFold parts counts with
        | some elim =>
            irvLoop parts fuel (remaining.filter (fun id => id ≠ elim))
              (ballots.map (fun b => (b.1, b.2.filter (fun id => id ≠ elim))))
        | none => .leftover remaining

/-- `promoteToHost`. -/
def promoteToHost (s : RoomState) (p : Participant) (now : Nat) (r : Rand) : RoomState :=
  let s := { s with hostId := some p.id, hostElection := none }
  { s with chat := pushChat s.chat (sysMsg r "👑" "#F59E0B" now) }

/-- `declareElectionWinner`. -/
def declareElectionWinner (s : RoomState) (winner : Participant) (now : Nat) (r : Rand) :
    RoomState :=
  let s := { s with hostId := some winner.id, hostElection := none }
  { s with chat := pushChat s.chat (sysMsg r "👑" "#22C55E" now) }

/-- JS `arr.sort((a, b) => a.joinedAt - b.joinedAt)` (stable, ascending). -/
def sortByJoinedAt (l : List Participant) : List Participant :=
  sortByKey (fun p => p.joinedAt) l

/-- The effective candidate set computed at the top of `resolveElection`:
stored candidates restricted to participants that exist and are active. -/
def resolveRemaining (s : RoomState) (e : HostElection) : List String :=
  e.candidates.filter (fun id =>
    match rlookup s.participants id with
    | some p => !p.left
    | none => false)

/-- `resolveElection`: run the IRV loop on the active-filtered candidates and
the stored ballots; a lone survivor wins outright, a multi-candidate leftover
(source's dead `break` path) falls back to the earliest-joined candidate, and
an empty field promotes the earliest-joined active participant (when one
exists — with none, the source returns leaving the election in place). -/
def resolveElection (s : RoomState) (now : Nat) (winnerMsg promoteMsg : Rand) : RoomState :=
  match s.hostElection with
  | none => s
  | some e =>
    let active := activeParticipants s
    let remaining := resolveRemaining s e
    match irvLoop s.participants remaining.length remaining e.votes with
    | .winner cid =>
        match rlookup s.participants cid with
        | some w => declareElectionWinner s w now winnerMsg
        | none => s
    | .leftover rem =>
      match rem with
      | [cid] =>
          match rlookup s.participants cid with
          | some w => declareElectionWinner s w now winnerMsg
          | none => s
      | [] =>
          match sortByJoinedAt active with
          | w :: _ => promoteToHost s w now promoteMsg
          | [] => s
      | _ =>
          match sortByJoinedAt (rem.filterMap (fun id => rlookup s.participants id)) with
          | w :: _ => declareElectionWinner s w now winnerMsg
          | [] => s

/-- Oracle values for the chat messages the `leave` handler can emit. -/
structure LeaveEnv where
  leaveMsg : Rand
  electionMsg : Rand
  promoteMsg : Rand
  winnerMsg : Rand
deriving Repr, DecidableEq

/-- `startHostElection`: auto-promote a lone active participant, clear the
host when none remain, otherwise open an election whose candidates are all
active participants. -/
def startHostElection (s : RoomState) (now : Nat) (env : LeaveEnv) : RoomState :=
  let active := activeParticipants s
  match active with
  | [p] => promoteToHost s p now env.promoteMsg
  | [] => { s with hostId := none }
  | _ =>
    let e : HostElection :=
      { candidates := active.map (·.id), votes := [], startedAt := now }
    let s := { s with hostElection := some e }
    { s with chat := pushChat s.chat (sysMsg env.electionMsg "🗳️" "#8B5CF6" now) }

/-- The ballot-recording prefix of `recordHostVote`: filter the rankings to
valid candidate ids and store them under the voter's id. -/
def recordHostVoteState (s : RoomState) (voterId : String) (rankings : List String) :
    RoomState :=
  match s.hostElection with
  | none => s
  | some e =>
    let valid := rankings.filter (fun id => e.candidates.contains id)
    { s with hostElection := some { e with votes := rset e.votes voterId valid } }

/-- `activeParticipants.every(p => state.hostElection!.votes[p.id]?.length > 0)`. -/
def allBallotsIn (s : RoomState) : Bool :=
  match s.hostElection with
  | none => false
  | some e =>
      (activeParticipants s).all (fun p => !((rlookup e.votes p.id).getD []).isEmpty)

/-- Oracle values consumed by a `join` message: the timestamp, the uuid a
fresh participant would get, the `pickUniqueIdentity` draw, and the join
announcement. -/
structure JoinEnv where
  now : Nat
  freshId : String
  pickEmoji : String
  pickColor : String
  joinMsg : Rand
deriving Repr, DecidableEq

/-- The case analysis at the top of the `join` handler (before host
assignment and the bootstrap reply).  Returns the updated state, the
resolved participant id, and the `isReconnection` flag.  JS truthiness of
the requested fields is applied via `jsStr`. -/
def joinCore (s : RoomState) (reqId reqEmoji reqColor : Option String)
    (name : String) (env : JoinEnv) : RoomState × String × Bool :=
  let reqId := jsStr reqId
  let reqEmoji := jsStr reqEmoji
  let reqColor := jsStr reqColor
  let freshJoin : RoomState × String × Bool :=
    let pid := env.freshId
    let p : Participant :=
      { id := pid, name := name, emoji := reqEmoji.getD env.pickEmoji,
        color := reqColor.getD env.pickColor, vote := none, left := false,
        joinedAt := env.now }
    ({ s with participants := rset s.participants pid p }, pid, false)
  match reqId with
  | some rid =>
    match rlookup s.participants rid with
    | some p =>
        let p := { p with name := name }
        if p.left then
          let p := { p with left := false }
          ({ s with participants := rset s.participants rid p }, rid, false)
        else
          ({ s with participants := rset s.participants rid p }, rid, true)
    | none =>
        match reqEmoji, reqColor with
        | some em, some co =>
            let p : Participant :=
              { id := rid, name := name, emoji := em, color := co,
                vote := jsStr (rlookup s.votes rid), left := false, joinedAt := env.now }
            ({ s with participants := rset s.participants rid p }, rid, false)
        | _, _ => freshJoin
  | none => freshJoin

/-- `join` handler, state part: case analysis, then `if (!state.hostId)
state.hostId = participantId`, then (for non-reconnections) the join system
message.  The `joined` bootstrap reply is reproduced by `joinResponse`. -/
def handleJoin (s : RoomState) (reqId reqEmoji reqColor : Option String)
    (name : String) (env : JoinEnv) : RoomState :=
  let (s1, pid, isRecon) := joinCore s reqId reqEmoji reqColor name env
  let s1 := if s1.hostId = none then { s1 with hostId := some pid } else s1
  if isRecon then s1
  else { s1 with chat := pushChat s1.chat (sysMsg env.joinMsg "👋" "#22C55E" env.now) }

/-- The vote value a participant entry is serialised with for a given
viewer: raw when revealed or own, otherwise `'hidden'` for a truthy vote and
`null` for no vote. -/
def maskVote (revealed : Bool) (viewerId : String) (p : Participant) : Option String :=
  if revealed then p.vote
  else if p.id = viewerId then p.vote
  else if (jsStr p.vote).isSome then some "hidden" else none

/-- The `participantsForClient` list of the `joined` bootstrap: active
participants only, votes masked for the joining viewer. -/
def participantsForClient (s : RoomState) (viewerId : String) : List Participant :=
  (activeParticipants s).map (fun p => { p with vote := maskVote s.revealed viewerId p })

/-- The state-relevant fields of the `joined` bootstrap reply. -/
structure JoinedPayload where
  participantId : String
  hostId : Option String
  participants : List Participant
  revealed : Bool
  roundNumber : Nat
  chat : List ChatMessage
deriving Repr, DecidableEq

/-- The `joined` reply sent to a joining socket: computed on the state after
the case analysis and host assignment, before the join system message is
appended (`ws.send` precedes `state.chat.push` in the handler). -/
def joinResponse (s : RoomState) (reqId reqEmoji reqColor : Option String)
    (name : String) (env : JoinEnv) : JoinedPayload :=
  let (s1, pid, _) := joinCore s reqId reqEmoji reqColor name env
  let s1 := if s1.hostId = none then { s1 with hostId := some pid } else s1
  { participantId := pid, hostId := s1.hostId,
    participants := participantsForClient s1 pid,
    revealed := s1.revealed, roundNumber := s1.roundNumber,
    chat := takeLast 50 s1.chat }

/-- The state mutations of the `vote` handler that precede its inlined
all-voted check: the vote recorded on the participant and in the persistent
vote map, plus — only when the participant had no vote yet — the first-vote
stats and the vote-cast announcement. -/
def votePre (s : RoomState) (pid : String) (p : Participant) (v : String) (now : Nat)
    (voteMsg : Rand) : RoomState :=
  let hadVoteBefore := p.vote.isSome
  let p := { p with vote := some v }
  let s := { s with participants := rset s.participants pid p,
                    votes := rset s.votes pid v }
  let s :=
    if !hadVoteBefore then
      let ps := updStats s.stats.participantStats pid (fun st =>
        { st with totalVotes := st.totalVotes + 1,
                  participatedRounds := st.participatedRounds + 1,
                  voteTimesMs := st.voteTimesMs ++ [(now : Int) - (s.stats.roundStartTime : Int)] })
      { s with stats := { s.stats with participantStats := ps } }
    else s
  if !hadVoteBefore then
    { s with chat := pushChat s.chat (sysMsg voteMsg "🗳️" "#6366F1" now) }
  else s

/-- `vote` handler: guards, then the pre-check mutations of `votePre`, then
the inlined all-voted reveal check (identical to `checkAndReveal`, which
here runs with `revealed` known false). -/
def handleVote (s : RoomState) (sender : Option String) (v : String) (now : Nat)
    (voteMsg : Rand) (renv : RevealEnv) : RoomState :=
  match sender with
  | none => s
  | some pid =>
    match rlookup s.participants pid with
    | none => s
    | some p =>
      if s.revealed then s
      else checkAndReveal (votePre s pid p v now voteMsg) renv now

/-- `reset` handler: guarded by `participantId !== state.hostId` (note: a
sender with no participant id passes the guard when `hostId` is null); clear
every participant's vote and the persistent vote map, unset `revealed`,
bump the round number, restart the latency clock, announce the round. -/
def handleReset (s : RoomState) (sender : Option String) (now : Nat) (roundMsg : Rand) :
    RoomState :=
  if sender ≠ s.hostId then s
  else
    let s := { s with
      participants := s.participants.map
        (fun (e : String × Participant) => (e.1, { e.2 with vote := none })),
      votes := [], revealed := false, roundNumber := s.roundNumber + 1,
      stats := { s.stats with roundStartTime := now } }
    { s with chat := pushChat s.chat (sysMsg roundMsg "🎲" "#10B981" now) }

/-- `chat` handler: trim, reject empty or overlong (> 1000) text, append. -/
def handleChat (s : RoomState) (sender : Option String) (text : String) (now : Nat)
    (msgId : String) : RoomState :=
  match sender with
  | none => s
  | some pid =>
    match rlookup s.participants pid with
    | none => s
    | some p =>
      let t := text.trim
      if t = "" || decide (1000 < t.length) then s
      else
        let m : ChatMessage :=
          { id := msgId, participantId := pid, name := p.name, emoji := p.emoji,
            color := p.color, text := t, timestamp := now }
        { s with chat := pushChat s.chat m }

/-- `kick` handler: host-guarded (same `!==` guard as reset), no self-kick,
soft-delete the target and clear both vote stores, announce, then
`checkAndReveal`.  The election state is not touched. -/
def handleKick (s : RoomState) (sender : Option String) (target : String) (now : Nat)
    (kickMsgId : String) (renv : RevealEnv) : RoomState :=
  if sender ≠ s.hostId then s
  else if target = "" || sender == some target then s
  else
    match rlookup s.participants target with
    | none => s
    | some tp =>
      let tp := { tp with left := true, vote := none }
      let s := { s with participants := rset s.participants target tp,
                        votes := rdelete s.votes target }
      let m : ChatMessage :=
        { id := kickMsgId, participantId := "system", name := "System", emoji := "⚠️",
          color := "#EF4444", text := "**" ++ tp.name ++ "** was kicked from the room",
          timestamp := now }
      let s := { s with chat := pushChat s.chat m }
      checkAndReveal s renv now

/-- `leave` handler: soft-delete the leaver and clear both vote stores,
announce; a leaving host clears `hostId` and starts an election; a leaving
election candidate is removed from the stored candidate set and their own
ballot is deleted, with auto-promotion / abandonment / early resolution
checks.  No reveal check is performed. -/
def handleLeave (s : RoomState) (sender : Option String) (now : Nat) (env : LeaveEnv) :
    RoomState :=
  match sender with
  | none => s
  | some pid =>
    match rlookup s.participants pid with
    | none => s
    | some p =>
      let p := { p with left := true, vote := none }
      let s := { s with participants := rset s.participants pid p,
                        votes := rdelete s.votes pid }
      let s := { s with chat := pushChat s.chat (sysMsg env.leaveMsg "👋" "#EAB308" now) }
      if some pid == s.hostId then
        let s := { s with hostId := none }
        startHostElection s now env
      else
        match s.hostElection with
        | none => s
        | some e =>
          if e.candidates.contains pid then
            let e := { e with candidates := e.candidates.filter (fun id => id ≠ pid),
                              votes := rdelete e.votes pid }
            let s := { s with hostElection := some e }
            let remaining := e.candidates.filter (fun id =>
              match rlookup s.participants id with
              | some q => !q.left
              | none => false)
            match remaining with
            | [cid] =>
                match rlookup s.participants cid with
                | some w => promoteToHost s w now env.promoteMsg
                | none => s
            | [] => { s with hostElection := none }
            | _ =>
                if allBallotsIn s then resolveElection s now env.winnerMsg env.promoteMsg
                else s
          else s

/-- `host_vote` handler: record the ballot (invalid candidate ids filtered
out), then resolve if every active participant has a non-empty ballot. -/
def handleHostVote (s : RoomState) (sender : Option String) (rankings : List String)
    (now : Nat) (winnerMsg promoteMsg : Rand) : RoomState :=
  match sender with
  | none => s
  | some pid =>
    if s.hostElection.isNone then s
    else
      let s1 := recordHostVoteState s pid rankings
      if allBallotsIn s1 then resolveElection s1 now winnerMsg promoteMsg else s1

/-- `burn` handler: host-guarded; wipes durable storage and the cached
state, so the next access rebuilds the default state (at a later time). -/
def handleBurn (s : RoomState) (sender : Option String) (now : Nat) : RoomState :=
  if sender ≠ s.hostId then s else initialState now

/-- One inbound client message together with its oracle inputs.  `sender` is
what `getParticipantId` returns for the sending socket (null when the socket
never joined). -/
inductive Msg where
  | join (reqId reqEmoji reqColor : Option String) (name : String) (env : JoinEnv)
  | vote (sender : Option String) (v : String) (now : Nat) (voteMsg : Rand) (renv : RevealEnv)
  | reset (sender : Option String) (now : Nat) (roundMsg : Rand)
  | chat (sender : Option String) (text : String) (now : Nat) (msgId : String)
  | kick (sender : Option String) (target : String) (now : Nat) (kickMsgId : String)
      (renv : RevealEnv)
  | leave (sender : Option String) (now : Nat) (env : LeaveEnv)
  | hostVote (sender : Option String) (rankings : List String) (now : Nat)
      (winnerMsg promoteMsg : Rand)
  | burn (sender : Option String) (now : Nat)
  | getStats
  | ping
deriving Repr, DecidableEq

/-- The serialized dispatch of `handleMessage` (plus the state-free `ping`
and `get_stats`). -/
def handleMessage (s : RoomState) (m : Msg) : RoomState :=
  match m with
  | .join reqId reqEmoji reqColor name env => handleJoin s reqId reqEmoji reqColor name env
  | .vote sender v now voteMsg renv => handleVote s sender v now voteMsg renv
  | .reset sender now roundMsg => handleReset s sender now roundMsg
  | .chat sender text now msgId => handleChat s sender text now msgId
  | .kick sender target now kickMsgId renv => handleKick s sender target now kickMsgId renv
  | .leave sender now env => handleLeave s sender now env
  | .hostVote sender rankings now winnerMsg promoteMsg =>
      handleHostVote s sender rankings now winnerMsg promoteMsg
  | .burn sender now => handleBurn s sender now
  | .getStats => s
  | .ping => s

def runRoom (s : RoomState) (ms : List Msg) : RoomState :=
  ms.foldl handleMessage s

/-- A room state reachable from a freshly initialised room by some sequence
of inbound messages. -/
def Reachable (s : RoomState) : Prop :=
  ∃ (n : Nat) (ms : List Msg), runRoom (initialState n) ms = s

/-- The read-only body of the HTTP GET branch of `fetch`. -/
structure Snapshot where
  participants : List Participant
  revealed : Bool
  roundNumber : Nat
deriving Repr, DecidableEq

/-- The HTTP GET branch: returns the full participant records (no `left`
filter, raw `vote` values) plus `revealed` and `roundNumber`; the room state
is only read. -/
def httpGet (s : RoomState) : RoomState × Snapshot :=
  (s, { participants := rvalues s.participants, revealed := s.revealed,
        roundNumber := s.roundNumber })

def Msg.isJoin : Msg → Bool
  | .join _ _ _ _ _ => true
  | _ => false

/-- The mutual-exclusion invariant claimed for `hostId` / `hostElection`. -/
def HostExcl (s : RoomState) : Prop :=
  s.hostId = none ∨ s.hostElection = none

/-- The three "first vote of the round" counters of a participant's stats
entry (an absent entry reads as the zero entry it would be initialised to). -/
def cnt3 (ps : List (String × ParticipantStats)) (q : String) : Nat × Nat × List Int :=
  let st := (rlookup ps q).getD initParticipantStats
  (st.totalVotes, st.participatedRounds, st.voteTimesMs)

/-! ### Single-flight state loader (`getState` / `loadState` memoization)

`getState` first returns the cached state, then an already in-flight load
promise, and only otherwise starts `loadState`, publishing the promise
before returning it.  The cache and the promise are abstracted to tokens;
what matters is which of the three code paths each concurrent caller takes
and which promise it awaits. -/

inductive LoadAction where
  | useCache
  | awaitPromise (pid : Nat)
  | startLoad (pid : Nat)
deriving Repr, DecidableEq

structure ActorLoadState where
  cachedState : Option Nat
  loadPromise : Option Nat
deriving Repr, DecidableEq

/-- One `getState()` call: the three-way dispatch of the source, with
`fresh` the identity of the promise a new `loadState()` call would create. -/
def getStateStep (a : ActorLoadState) (fresh : Nat) : ActorLoadState × LoadAction :=
  match a.cachedState with
  | some _ => (a, .useCache)
  | none =>
    match a.loadPromise with
    | some pid => (a, .awaitPromise pid)
    | none => ({ a with loadPromise := some fresh }, .startLoad fresh)

/-- The actions taken by a sequence of `getState()` calls during which the
in-flight load never completes (the cold-start race window). -/
def runGetStates : ActorLoadState → List Nat → List LoadAction
  | _, [] => []
  | a, f :: fs =>
    let (a', act) := getStateStep a f
    act :: runGetStates a' fs

/-! ### Concrete traces used by counterexamples and witnesses

Oracle inputs are fixed arbitrarily; participant ids are the letter names
used below (UUID-shaped in production, in particular never array-index-like
object keys). -/

def jEnv (i : String) (n : Nat) : JoinEnv :=
  { now := n, freshId := i, pickEmoji := "🐶", pickColor := "#FF6B6B",
    joinMsg := ⟨"jm", "join message"⟩ }

def rEnv : RevealEnv := ⟨⟨"rm", "reveal message"⟩, ⟨"cm", "consensus message"⟩⟩

def lEnv : LeaveEnv :=
  ⟨⟨"lm", "leave message"⟩, ⟨"em", "election message"⟩,
   ⟨"pm", "promote message"⟩, ⟨"wm", "winner message"⟩⟩

/-- A `join` carrying a remembered id and identity (the rejoin-with-stored-
identity branch), so the id of the created participant is `i`. -/
def mkJoin (i : String) (n : Nat) : Msg :=
  .join (some i) (some "🐶") (some "#FF6B6B") i (jEnv i n)

def mkVote (i v : String) (n : Nat) : Msg := .vote (some i) v n ⟨"vm", "vote message"⟩ rEnv

def mkLeave (i : String) (n : Nat) : Msg := .leave (some i) n lEnv

def mkHostVote (i : String) (r : List String) (n : Nat) : Msg :=
  .hostVote (some i) r n ⟨"wm", "winner message"⟩ ⟨"pm", "promote message"⟩

/-- C1 counterexample state: A joins and votes (sole participant, so the
round reveals), then B joins fresh. -/
def c1state : RoomState :=
  runRoom (initialState 0) [mkJoin "A" 0, mkVote "A" "5" 1, mkJoin "B" 2]

/-- C2 counterexample state: A (host), B, C join; A leaves, opening an
election between B and C; D joins while the election is open. -/
def c2state : RoomState :=
  runRoom (initialState 0)
    [mkJoin "A" 0, mkJoin "B" 1, mkJoin "C" 2, mkLeave "A" 3, mkJoin "D" 4]

/-- C4 counterexample state: A and B join, A votes, then B (the only
non-voter) leaves. -/
def c4state : RoomState :=
  runRoom (initialState 0) [mkJoin "A" 0, mkJoin "B" 1, mkVote "A" "5" 2, mkLeave "B" 3]

/-- C5 counterexample, state before the resolving ballot: A (host), B, C, D
join; A leaves (election candidates B, C, D); B casts the ballot
[D, C, B]; candidate D leaves. -/
def c5pre : RoomState :=
  runRoom (initialState 0)
    [mkJoin "A" 0, mkJoin "B" 1, mkJoin "C" 2, mkJoin "D" 3, mkLeave "A" 4,
     mkHostVote "B" ["D", "C", "B"] 5, mkLeave "D" 6]

/-- C5: the state `recordHostVote` passes to `resolveElection` once C's
ballot arrives. -/
def c5atResolve : RoomState := recordHostVoteState c5pre "C" ["C", "B"]

/-- Participant records for the C3 concrete elections. -/
def c3parts : List (String × Participant) :=
  [("X", ⟨"X", "X", "🐶", "#FF6B6B", none, false, 1⟩),
   ("Y", ⟨"Y", "Y", "🐶", "#FF6B6B", none, false, 2⟩),
   ("Z", ⟨"Z", "Z", "🐶", "#FF6B6B", none, false, 3⟩)]

def c3ballotsMajority : List (String × List String) :=
  [("A", ["X", "Y"]), ("B", ["X", "Y"]), ("C", ["Y", "X"])]

def c3ballotsTie : List (String × List String) :=
  [("A", ["X", "Y", "Z"]), ("B", ["Y", "Z", "X"]), ("C", ["Z", "X", "Y"])]

/-- C3 reduced-to-one scenario: H (host) joins first, then X and Y; H
leaves, opening an election between X and Y; each votes for themselves
first. -/
def c3tieRoom : RoomState :=
  runRoom (initialState 0)
    [mkJoin "H" 0, mkJoin "X" 1, mkJoin "Y" 2, mkLeave "H" 3,
     mkHostVote "X" ["X", "Y"] 4, mkHostVote "Y" ["Y", "X"] 5]

/-- C7 scenario state: A and B join, A votes 5, changes to ?, B votes 8
(triggering the reveal). -/
def c7state : RoomState :=
  runRoom (initialState 0)
    [mkJoin "A" 0, mkJoin "B" 1, mkVote "A" "5" 2, mkVote "A" "?" 3, mkVote "B" "8" 4]

/-- 150 distinct chat messages for the C8 chat-cap scenario. -/
def c8msgOf (n : Nat) : ChatMessage :=
  ⟨toString n, "u", "user", "🐶", "#FF6B6B", toString n, n⟩

def c8log : List ChatMessage := (List.range 150).map c8msgOf

/-- The stored log after appending the 150 messages through the push-and-cap
idiom every handler uses. -/
def c8stored : List ChatMessage := c8log.foldl pushChat []

/-- A room holding the capped log, for the fresh-joiner bootstrap. -/
def c8room : RoomState := { initialState 0 with chat := c8stored }

/-- C7 scenario, mid-trace: state after A's two votes, before B votes. -/
def c7mid : RoomState :=
  runRoom (initialState 0)
    [mkJoin "A" 0, mkJoin "B" 1, mkVote "A" "5" 2, mkVote "A" "?" 3]

/-- A one-participant room whose sole member A is host and has not voted. -/
def hostRoom : RoomState := runRoom (initialState 0) [mkJoin "A" 0]

/-- A two-participant room (host A has voted 5, B has not; unrevealed). -/
def voteRoom : RoomState :=
  runRoom (initialState 0) [mkJoin "A" 0, mkJoin "B" 1, mkVote "A" "5" 2]

/-- A's participant record inside `voteRoom`. -/
def aRec : Participant := ⟨"A", "A", "🐶", "#FF6B6B", some "5", false, 0⟩

/-- B's participant record inside `c4state` (B has left). -/
def bLeftRec : Participant := ⟨"B", "B", "🐶", "#FF6B6B", none, true, 1⟩

/-! ## Generic lemmas about the record and list helpers -/

theorem rlookup_rset {α : Type} (l : List (String × α)) (k : String) (v : α) (k' : String) :
    rlookup (rset l k v) k' = if k' = k then some v else rlookup l k' := by
  induction l with
  | nil =>
      by_cases h : k' = k
      · subst h; simp [rset, rlookup]
      · simp [rset, rlookup, h, beq_iff_eq, Ne.symm h]
  | cons e rest ih =>
      by_cases he : e.1 = k
      · by_cases h : k' = k
        · subst h; simp [rset, rlookup, he, beq_iff_eq]
        · simp [rset, rlookup, he, h, beq_iff_eq, Ne.symm h]
      · by_cases h : k' = k
        · subst h
          simp [rset, rlookup, he, beq_iff_eq, ih, Ne.symm he]
        · by_cases hek : e.1 = k'
          · simp [rset, rlookup, he, beq_iff_eq, hek, h]
          · simp [rset, rlookup, he, beq_iff_eq, hek, h, ih]

theorem pushChat_length_le (c : List ChatMessage) (m : ChatMessage) :
    (pushChat c m).length ≤ 100 := by
  simp only [pushChat]
  split
  · rename_i h
    simp only [List.length_drop]
    omega
  · rename_i h
    omega

theorem takeLast_all {α : Type} (n : Nat) (l : List α) (h : l.length ≤ n) :
    takeLast n l = l := by
  unfold takeLast
  have h0 : l.length - n = 0 := by omega
  simp [h0]

theorem length_filter_disjoint_le {α : Type} (p q : α → Bool) (l : List α)
    (h : ∀ a, ¬(p a = true ∧ q a = true)) :
    (l.filter p).length + (l.filter q).length ≤ l.length := by
  induction l with
  | nil => simp
  | cons a rest ih =>
      cases hp : p a with
      | true =>
          cases hq : q a with
          | true => exact absurd ⟨hp, hq⟩ (h a)
          | false => simp [List.filter_cons, hp, hq]; omega
      | false =>
          cases hq : q a <;> simp [List.filter_cons, hp, hq] <;> omega

theorem find?_unique {α : Type} (p : α → Bool) (l : List α) (c : α) (hc : c ∈ l)
    (hiff : ∀ x ∈ l, p x = true ↔ x = c) : l.find? p = some c := by
  induction l with
  | nil => cases hc
  | cons a rest ih =>
      by_cases ha : a = c
      · subst ha
        have : p a = true := (hiff a (List.mem_cons_self a rest)).mpr rfl
        simp [List.find?, this]
      · have hpa' : p a = false := by
          cases hh : p a
          · rfl
          · exact absurd ((hiff a (List.mem_cons_self a rest)).mp hh) ha
        have hcrest : c ∈ rest := by
          rcases List.mem_cons.mp hc with h' | h'
          · exact absurd h'.symm ha
          · exact h'
        simp [List.find?, hpa']
        exact ih hcrest (fun x hx => hiff x (List.mem_cons_of_mem a hx))

/-! ## Structural lemmas about the handlers -/

theorem checkAndReveal_frame (s : RoomState) (renv : RevealEnv) (now : Nat) :
    (checkAndReveal s renv now).participants = s.participants ∧
    (checkAndReveal s renv now).hostId = s.hostId ∧
    (checkAndReveal s renv now).hostElection = s.hostElection ∧
    (checkAndReveal s renv now).votes = s.votes ∧
    (checkAndReveal s renv now).roundNumber = s.roundNumber := by
  simp only [checkAndReveal]
  split
  · exact ⟨rfl, rfl, rfl, rfl, rfl⟩
  · split
    · split
      · split
        · exact ⟨rfl, rfl, rfl, rfl, rfl⟩
        · exact ⟨rfl, rfl, rfl, rfl, rfl⟩
      · exact ⟨rfl, rfl, rfl, rfl, rfl⟩
    · exact ⟨rfl, rfl, rfl, rfl, rfl⟩

theorem checkAndReveal_revealed_cause (s : RoomState) (renv : RevealEnv) (now : Nat)
    (h0 : s.revealed = false) (h : (checkAndReveal s renv now).revealed = true) :
    (activeParticipants s).all (fun p => p.vote.isSome) = true ∧
    0 < (activeParticipants s).length := by
  revert h
  simp only [checkAndReveal]
  split
  · rename_i hr
    rw [h0] at hr
    cases hr
  · split
    · rename_i hg
      intro _
      simp only [Bool.and_eq_true, decide_eq_true_eq] at hg
      exact ⟨hg.1, hg.2⟩
    · intro h
      rw [h0] at h
      cases h

theorem checkAndReveal_reveals (s : RoomState) (renv : RevealEnv) (now : Nat)
    (h0 : s.revealed = false)
    (ha : (activeParticipants s).all (fun p => p.vote.isSome) = true)
    (hn : 0 < (activeParticipants s).length) :
    (checkAndReveal s renv now).revealed = true := by
  simp only [checkAndReveal]
  split
  · rename_i hr
    rw [h0] at hr
    cases hr
  · split
    · split
      · split
        · rfl
        · rfl
      · rfl
    · rename_i hg
      rw [ha] at hg
      simp only [Bool.true_and, decide_eq_false_iff_not] at hg
      exact absurd (decide_eq_true hn) hg

theorem checkAndReveal_chat_le (s : RoomState) (renv : RevealEnv) (now : Nat)
    (h : s.chat.length ≤ 100) : (checkAndReveal s renv now).chat.length ≤ 100 := by
  simp only [checkAndReveal]
  split
  · exact h
  · split
    · split
      · split
        · exact pushChat_length_le _ _
        · exact pushChat_length_le _ _
      · exact pushChat_length_le _ _
    · exact h

theorem promoteToHost_frame (s : RoomState) (p : Participant) (now : Nat) (r : Rand) :
    (promoteToHost s p now r).participants = s.participants ∧
    (promoteToHost s p now r).hostId = some p.id ∧
    (promoteToHost s p now r).hostElection = none ∧
    (promoteToHost s p now r).revealed = s.revealed ∧
    (promoteToHost s p now r).chat = pushChat s.chat (sysMsg r "👑" "#F59E0B" now) := by
  exact ⟨rfl, rfl, rfl, rfl, rfl⟩

theorem declareElectionWinner_frame (s : RoomState) (w : Participant) (now : Nat) (r : Rand) :
    (declareElectionWinner s w now r).participants = s.participants ∧
    (declareElectionWinner s w now r).hostId = some w.id ∧
    (declareElectionWinner s w now r).hostElection = none ∧
    (declareElectionWinner s w now r).revealed = s.revealed ∧
    (declareElectionWinner s w now r).chat = pushChat s.chat (sysMsg r "👑" "#22C55E" now) := by
  exact ⟨rfl, rfl, rfl, rfl, rfl⟩

theorem resolveElection_excl (s : RoomState) (now : Nat) (wm pm : Rand)
    (h : HostExcl s) : HostExcl (resolveElection s now wm pm) := by
  simp only [resolveElection]
  split
  · exact h
  · split
    · split
      · exact Or.inr rfl
      · exact h
    · rename_i rem _
      match rem with
      | [cid] =>
          simp only
          split
          · exact Or.inr rfl
          · exact h
      | [] =>
          simp only
          split
          · exact Or.inr rfl
          · exact h
      | a :: b :: rest =>
          simp only
          split
          · exact Or.inr rfl
          · exact h

theorem resolveElection_revealed (s : RoomState) (now : Nat) (wm pm : Rand) :
    (resolveElection s now wm pm).revealed = s.revealed := by
  simp only [resolveElection]
  split
  · rfl
  · split
    · split <;> rfl
    · rename_i rem _
      match rem with
      | [cid] => simp only; split <;> rfl
      | [] => simp only; split <;> rfl
      | a :: b :: rest => simp only; split <;> rfl

theorem resolveElection_chat_le (s : RoomState) (now : Nat) (wm pm : Rand)
    (h : s.chat.length ≤ 100) : (resolveElection s now wm pm).chat.length ≤ 100 := by
  simp only [resolveElection]
  split
  · exact h
  · split
    · split
      · exact pushChat_length_le _ _
      · exact h
    · rename_i rem _
      match rem with
      | [cid] =>
          simp only
          split
          · exact pushChat_length_le _ _
          · exact h
      | [] =>
          simp only
          split
          · exact pushChat_length_le _ _
          · exact h
      | a :: b :: rest =>
          simp only
          split
          · exact pushChat_length_le _ _
          · exact h

theorem startHostElection_excl (s : RoomState) (now : Nat) (env : LeaveEnv)
    (h : s.hostId = none) : HostExcl (startHostElection s now env) := by
  simp only [startHostElection]
  split
  · exact Or.inr rfl
  · exact Or.inl rfl
  · exact Or.inl h

theorem startHostElection_revealed (s : RoomState) (now : Nat) (env : LeaveEnv) :
    (startHostElection s now env).revealed = s.revealed := by
  simp only [startHostElection]
  split <;> rfl

theorem startHostElection_chat_le (s : RoomState) (now : Nat) (env : LeaveEnv)
    (h : s.chat.length ≤ 100) : (startHostElection s now env).chat.length ≤ 100 := by
  simp only [startHostElection]
  split
  · exact pushChat_length_le _ _
  · exact h
  · exact pushChat_length_le _ _

theorem joinCore_frame (s : RoomState) (a b c : Option String) (name : String)
    (env : JoinEnv) :
    (joinCore s a b c name env).1.revealed = s.revealed ∧
    (joinCore s a b c name env).1.hostId = s.hostId ∧
    (joinCore s a b c name env).1.hostElection = s.hostElection ∧
    (joinCore s a b c name env).1.chat = s.chat := by
  simp only [joinCore]
  split
  · split
    · split
      · exact ⟨rfl, rfl, rfl, rfl⟩
      · exact ⟨rfl, rfl, rfl, rfl⟩
    · split
      · exact ⟨rfl, rfl, rfl, rfl⟩
      · exact ⟨rfl, rfl, rfl, rfl⟩
  · exact ⟨rfl, rfl, rfl, rfl⟩

theorem handleJoin_frame (s : RoomState) (a b c : Option String) (name : String)
    (env : JoinEnv) :
    (handleJoin s a b c name env).revealed = s.revealed ∧
    (handleJoin s a b c name env).hostElection = s.hostElection := by
  have hf := joinCore_frame s a b c name env
  simp only [handleJoin]
  split <;> split <;> exact ⟨hf.1, hf.2.2.1⟩

theorem handleJoin_chat_le (s : RoomState) (a b c : Option String) (name : String)
    (env : JoinEnv) (h : s.chat.length ≤ 100) :
    (handleJoin s a b c name env).chat.length ≤ 100 := by
  have hf := joinCore_frame s a b c name env
  simp only [handleJoin]
  split <;> split <;>
    first
      | exact pushChat_length_le _ _
      | (show (joinCore s a b c name env).1.chat.length ≤ 100
         rw [hf.2.2.2]
         exact h)

theorem votePre_frame (s : RoomState) (pid : String) (p : Participant) (v : String)
    (now : Nat) (vm : Rand) :
    (votePre s pid p v now vm).revealed = s.revealed ∧
    (votePre s pid p v now vm).hostId = s.hostId ∧
    (votePre s pid p v now vm).hostElection = s.hostElection ∧
    (votePre s pid p v now vm).participants =
      rset s.participants pid { p with vote := some v } := by
  simp only [votePre]
  split <;> exact ⟨rfl, rfl, rfl, rfl⟩

theorem votePre_chat_le (s : RoomState) (pid : String) (p : Participant) (v : String)
    (now : Nat) (vm : Rand) (h : s.chat.length ≤ 100) :
    (votePre s pid p v now vm).chat.length ≤ 100 := by
  simp only [votePre]
  split
  · exact pushChat_length_le _ _
  · exact h

theorem handleVote_frame (s : RoomState) (sender : Option String) (v : String)
    (now : Nat) (vm : Rand) (renv : RevealEnv) :
    (handleVote s sender v now vm renv).hostId = s.hostId ∧
    (handleVote s sender v now vm renv).hostElection = s.hostElection := by
  simp only [handleVote]
  split
  · exact ⟨rfl, rfl⟩
  split
  · exact ⟨rfl, rfl⟩
  split
  · exact ⟨rfl, rfl⟩
  constructor
  · rw [(checkAndReveal_frame _ _ _).2.1]
    exact (votePre_frame _ _ _ _ _ _).2.1
  · rw [(checkAndReveal_frame _ _ _).2.2.1]
    exact (votePre_frame _ _ _ _ _ _).2.2.1

theorem handleVote_chat_le (s : RoomState) (sender : Option String) (v : String)
    (now : Nat) (vm : Rand) (renv : RevealEnv) (h : s.chat.length ≤ 100) :
    (handleVote s sender v now vm renv).chat.length ≤ 100 := by
  simp only [handleVote]
  split
  · exact h
  split
  · exact h
  split
  · exact h
  exact checkAndReveal_chat_le _ _ _ (votePre_chat_le _ _ _ _ _ _ h)

theorem handleReset_frame (s : RoomState) (sender : Option String) (now : Nat) (r : Rand) :
    (handleReset s sender now r).hostId = s.hostId ∧
    (handleReset s sender now r).hostElection = s.hostElection ∧
    ((handleReset s sender now r).revealed = false ∨
      (handleReset s sender now r).revealed = s.revealed) := by
  simp only [handleReset]
  split
  · exact ⟨rfl, rfl, Or.inr rfl⟩
  · exact ⟨rfl, rfl, Or.inl rfl⟩

theorem handleReset_chat_le (s : RoomState) (sender : Option String) (now : Nat) (r : Rand)
    (h : s.chat.length ≤ 100) : (handleReset s sender now r).chat.length ≤ 100 := by
  simp only [handleReset]
  split
  · exact h
  · exact pushChat_length_le _ _

theorem handleChat_frame (s : RoomState) (sender : Option String) (text : String)
    (now : Nat) (msgId : String) :
    (handleChat s sender text now msgId).revealed = s.revealed ∧
    (handleChat s sender text now msgId).hostId = s.hostId ∧
    (handleChat s sender text now msgId).hostElection = s.hostElection ∧
    (handleChat s sender text now msgId).participants = s.participants := by
  simp only [handleChat]
  split
  · exact ⟨rfl, rfl, rfl, rfl⟩
  · split
    · exact ⟨rfl, rfl, rfl, rfl⟩
    · split
      · exact ⟨rfl, rfl, rfl, rfl⟩
      · exact ⟨rfl, rfl, rfl, rfl⟩

theorem handleChat_chat_le (s : RoomState) (sender : Option String) (text : String)
    (now : Nat) (msgId : String) (h : s.chat.length ≤ 100) :
    (handleChat s sender text now msgId).chat.length ≤ 100 := by
  simp only [handleChat]
  split
  · exact h
  · split
    · exact h
    · split
      · exact h
      · exact pushChat_length_le _ _

theorem handleKick_frame (s : RoomState) (sender : Option String) (target : String)
    (now : Nat) (kid : String) (renv : RevealEnv) :
    (handleKick s sender target now kid renv).hostId = s.hostId ∧
    (handleKick s sender target now kid renv).hostElection = s.hostElection := by
  simp only [handleKick]
  split
  · exact ⟨rfl, rfl⟩
  · split
    · exact ⟨rfl, rfl⟩
    · split
      · exact ⟨rfl, rfl⟩
      · exact ⟨(checkAndReveal_frame _ _ _).2.1, (checkAndReveal_frame _ _ _).2.2.1⟩

theorem handleKick_chat_le (s : RoomState) (sender : Option String) (target : String)
    (now : Nat) (kid : String) (renv : RevealEnv) (h : s.chat.length ≤ 100) :
    (handleKick s sender target now kid renv).chat.length ≤ 100 := by
  simp only [handleKick]
  split
  · exact h
  · split
    · exact h
    · split
      · exact h
      · exact checkAndReveal_chat_le _ _ _ (pushChat_length_le _ _)

theorem handleLeave_revealed (s : RoomState) (sender : Option String) (now : Nat)
    (env : LeaveEnv) : (handleLeave s sender now env).revealed = s.revealed := by
  simp only [handleLeave]
  split
  · rfl
  · split
    · rfl
    · split
      · exact startHostElection_revealed _ _ _
      · split
        · rfl
        · split
          · split
            · split <;> rfl
            · rfl
            · split
              · exact resolveElection_revealed _ _ _ _
              · rfl
          · rfl

theorem handleLeave_chat_le (s : RoomState) (sender : Option String) (now : Nat)
    (env : LeaveEnv) (h : s.chat.length ≤ 100) :
    (handleLeave s sender now env).chat.length ≤ 100 := by
  simp only [handleLeave]
  split
  · exact h
  · split
    · exact h
    · split
      · exact startHostElection_chat_le _ _ _ (pushChat_length_le _ _)
      · split
        · exact pushChat_length_le _ _
        · split
          · split
            · split
              · exact pushChat_length_le _ _
              · exact pushChat_length_le _ _
            · exact pushChat_length_le _ _
            · split
              · exact resolveElection_chat_le _ _ _ _ (pushChat_length_le _ _)
              · exact pushChat_length_le _ _
          · exact pushChat_length_le _ _

theorem handleHostVote_revealed (s : RoomState) (sender : Option String)
    (rankings : List String) (now : Nat) (wm pm : Rand) :
    (handleHostVote s sender rankings now wm pm).revealed = s.revealed := by
  simp only [handleHostVote]
  split
  · rfl
  · split
    · rfl
    · split
      · rw [resolveElection_revealed]
        simp only [recordHostVoteState]
        split <;> rfl
      · simp only [recordHostVoteState]
        split <;> rfl

theorem handleHostVote_chat_le (s : RoomState) (sender : Option String)
    (rankings : List String) (now : Nat) (wm pm : Rand) (h : s.chat.length ≤ 100) :
    (handleHostVote s sender rankings now wm pm).chat.length ≤ 100 := by
  have hrec : ∀ pid r, (recordHostVoteState s pid r).chat = s.chat := by
    intro pid r
    simp only [recordHostVoteState]
    split <;> rfl
  simp only [handleHostVote]
  split
  · exact h
  · split
    · exact h
    · split
      · apply resolveElection_chat_le
        rw [hrec]
        exact h
      · rw [hrec]
        exact h

theorem handleMessage_chat_le (s : RoomState) (m : Msg) (h : s.chat.length ≤ 100) :
    (handleMessage s m).chat.length ≤ 100 := by
  cases m with
  | join a b c name env => exact handleJoin_chat_le s a b c name env h
  | vote sender v now vm renv => exact handleVote_chat_le s sender v now vm renv h
  | reset sender now r => exact handleReset_chat_le s sender now r h
  | chat sender text now msgId => exact handleChat_chat_le s sender text now msgId h
  | kick sender target now kid renv => exact handleKick_chat_le s sender target now kid renv h
  | leave sender now env => exact handleLeave_chat_le s sender now env h
  | hostVote sender rankings now wm pm => exact handleHostVote_chat_le s sender rankings now wm pm h
  | burn sender now =>
      simp only [handleMessage, handleBurn]
      split
      · exact h
      · simp [initialState]
  | getStats => exact h
  | ping => exact h

theorem runRoom_chat_le (ms : List Msg) (s : RoomState) (h : s.chat.length ≤ 100) :
    (runRoom s ms).chat.length ≤ 100 := by
  induction ms generalizing s with
  | nil => exact h
  | cons m rest ih => exact ih (handleMessage s m) (handleMessage_chat_le s m h)

theorem reachable_chat_le (s : RoomState) (h : Reachable s) : s.chat.length ≤ 100 := by
  obtain ⟨n, ms, rfl⟩ := h
  exact runRoom_chat_le ms (initialState n) (by simp [initialState])

theorem checkAndReveal_cause (s2 : RoomState) (renv : RevealEnv) (now : Nat)
    (h0 : s2.revealed = false) (h1 : (checkAndReveal s2 renv now).revealed = true) :
    (activeParticipants (checkAndReveal s2 renv now)).all (fun p => p.vote.isSome) = true ∧
    0 < (activeParticipants (checkAndReveal s2 renv now)).length := by
  have hp : activeParticipants (checkAndReveal s2 renv now) = activeParticipants s2 := by
    unfold activeParticipants
    rw [(checkAndReveal_frame s2 renv now).1]
  rw [hp]
  exact checkAndReveal_revealed_cause s2 renv now h0 h1

theorem handleVote_reveal_cause (s : RoomState) (sender : Option String) (v : String)
    (now : Nat) (vm : Rand) (renv : RevealEnv) (h0 : s.revealed = false)
    (h1 : (handleVote s sender v now vm renv).revealed = true) :
    (activeParticipants (handleVote s sender v now vm renv)).all
        (fun p => p.vote.isSome) = true ∧
    0 < (activeParticipants (handleVote s sender v now vm renv)).length := by
  revert h1
  simp only [handleVote]
  split
  · intro h1
    rw [h0] at h1
    cases h1
  split
  · intro h1
    rw [h0] at h1
    cases h1
  split
  · rename_i hrev
    rw [h0] at hrev
    cases hrev
  intro h1
  exact checkAndReveal_cause _ renv now ((votePre_frame _ _ _ _ _ _).1.trans h0) h1

theorem handleKick_reveal_cause (s : RoomState) (sender : Option String) (target : String)
    (now : Nat) (kid : String) (renv : RevealEnv) (h0 : s.revealed = false)
    (h1 : (handleKick s sender target now kid renv).revealed = true) :
    (activeParticipants (handleKick s sender target now kid renv)).all
        (fun p => p.vote.isSome) = true ∧
    0 < (activeParticipants (handleKick s sender target now kid renv)).length := by
  revert h1
  simp only [handleKick]
  split
  · intro h1
    rw [h0] at h1
    cases h1
  split
  · intro h1
    rw [h0] at h1
    cases h1
  split
  · intro h1
    rw [h0] at h1
    cases h1
  intro h1
  exact checkAndReveal_cause _ renv now (by exact h0) h1

theorem handleLeave_excl (s : RoomState) (sender : Option String) (now : Nat)
    (env : LeaveEnv) (h : HostExcl s) : HostExcl (handleLeave s sender now env) := by
  simp only [handleLeave]
  split
  · exact h
  split
  · exact h
  split
  · exact startHostElection_excl _ _ _ rfl
  · split
    · rename_i heq
      exact Or.inr heq
    · rename_i e heq
      have hid : s.hostId = none := by
        rcases h with h1 | h2
        · exact h1
        · have heq' : s.hostElection = some e := heq
          rw [h2] at heq'
          cases heq'
      split
      · split
        · split
          · exact Or.inr rfl
          · exact Or.inl hid
        · exact Or.inr rfl
        · split
          · exact resolveElection_excl _ _ _ _ (Or.inl hid)
          · exact Or.inl hid
      · exact Or.inl hid

theorem handleHostVote_excl (s : RoomState) (sender : Option String)
    (rankings : List String) (now : Nat) (wm pm : Rand) (h : HostExcl s) :
    HostExcl (handleHostVote s sender rankings now wm pm) := by
  simp only [handleHostVote]
  split
  · exact h
  split
  · exact h
  rename_i pid hne
  have hid : s.hostId = none := by
    rcases h with h1 | h2
    · exact h1
    · rw [h2] at hne
      simp at hne
  have hrec : HostExcl (recordHostVoteState s pid rankings) := by
    simp only [recordHostVoteState]
    split
    · exact h
    · exact Or.inl hid
  split
  · exact resolveElection_excl _ _ _ _ hrec
  · exact hrec

/-! ## First-vote counters are untouched outside the first-vote branch -/

theorem cnt3_getOrInit (ps : List (String × ParticipantStats)) (pid q : String) :
    cnt3 (getOrInitStats ps pid) q = cnt3 ps q := by
  simp only [getOrInitStats]
  split
  · rfl
  · rename_i hnone
    simp only [cnt3]
    rw [rlookup_rset]
    by_cases h : q = pid
    · subst h
      have hq : rlookup ps q = none := by
        cases hx : rlookup ps q
        · rfl
        · rw [hx] at hnone
          simp at hnone
      rw [if_pos rfl, hq]
      rfl
    · rw [if_neg h]

theorem cnt3_updStats (ps : List (String × ParticipantStats)) (pid : String)
    (f : ParticipantStats → ParticipantStats) (q : String)
    (hf : ∀ st, (f st).totalVotes = st.totalVotes ∧
      (f st).participatedRounds = st.participatedRounds ∧
      (f st).voteTimesMs = st.voteTimesMs) :
    cnt3 (updStats ps pid f) q = cnt3 ps q := by
  simp only [updStats]
  split
  · rename_i st hst
    rw [← cnt3_getOrInit ps pid q]
    simp only [cnt3]
    rw [rlookup_rset]
    by_cases h : q = pid
    · subst h
      rw [if_pos rfl, hst]
      have h3 := hf st
      simp [h3.1, h3.2.1, h3.2.2]
    · rw [if_neg h]
  · rw [← cnt3_getOrInit ps pid q]

theorem cnt3_updateConsensusStats (ps : List (String × ParticipantStats))
    (active : List Participant) (q : String) :
    cnt3 (updateConsensusStats ps active) q = cnt3 ps q := by
  simp only [updateConsensusStats]
  generalize consensusVoteOf active = cv
  induction active generalizing ps with
  | nil => rfl
  | cons p rest ih =>
      simp only [List.foldl_cons]
      rw [ih]
      split
      · rw [cnt3_updStats]
        · exact cnt3_getOrInit ps p.id q
        · intro st
          exact ⟨rfl, rfl, rfl⟩
      · exact cnt3_getOrInit ps p.id q

theorem cnt3_trackRevealStats (ps : List (String × ParticipantStats))
    (active : List Participant) (q : String) :
    cnt3 (trackRevealStats ps active) q = cnt3 ps q := by
  simp only [trackRevealStats]
  induction active generalizing ps with
  | nil => rfl
  | cons p rest ih =>
      simp only [List.foldl_cons]
      rw [ih]
      split
      · split
        · rw [cnt3_updStats]
          · exact cnt3_getOrInit ps p.id q
          · intro st
            exact ⟨rfl, rfl, rfl⟩
        · split
          · rw [cnt3_updStats]
            · exact cnt3_getOrInit ps p.id q
            · intro st
              exact ⟨rfl, rfl, rfl⟩
          · exact cnt3_getOrInit ps p.id q
      · exact cnt3_getOrInit ps p.id q

theorem cnt3_checkAndReveal (s : RoomState) (renv : RevealEnv) (now : Nat) (q : String) :
    cnt3 (checkAndReveal s renv now).stats.participantStats q =
      cnt3 s.stats.participantStats q := by
  simp only [checkAndReveal]
  split
  · rfl
  split
  · split
    · split
      · rw [cnt3_trackRevealStats, cnt3_updateConsensusStats]
      · rw [cnt3_trackRevealStats, cnt3_updateConsensusStats]
    · rfl
  · rfl

/-! ## IRV lemmas -/

theorem tally_disjoint (remaining : List String) (ballots : List (String × List String))
    (c c' : String) (h : c ≠ c') :
    tallyOf remaining ballots c + tallyOf remaining ballots c' ≤ ballots.length := by
  unfold tallyOf
  apply length_filter_disjoint_le
  intro b
  rintro ⟨h1, h2⟩
  rw [beq_iff_eq] at h1 h2
  rw [h1] at h2
  exact h (Option.some.inj h2)

theorem irv_majority (parts : List (String × Participant)) (fuel : Nat)
    (remaining : List String) (ballots : List (String × List String)) (c : String)
    (hlen : 1 < remaining.length) (hc : c ∈ remaining)
    (hmaj : ballots.length < 2 * tallyOf remaining ballots c) :
    irvLoop parts (fuel + 1) remaining ballots = .winner c := by
  simp only [irvLoop]
  rw [if_neg (by omega)]
  have hfind : (tallies remaining ballots).find?
      (fun e => decide (ballots.length < 2 * e.2)) =
      some (c, tallyOf remaining ballots c) := by
    unfold tallies
    apply find?_unique
    · exact List.mem_map_of_mem _ hc
    · intro x hx
      obtain ⟨y, hy, rfl⟩ := List.mem_map.mp hx
      constructor
      · intro hpx
        have hlt := of_decide_eq_true hpx
        by_contra hne
        have hyc : y ≠ c := fun hyc => hne (by rw [hyc])
        have hd := tally_disjoint remaining ballots y c hyc
        omega
      · intro hx2
        have h1 : y = c := congrArg Prod.fst hx2
        subst h1
        exact decide_eq_true hmaj
  simp [hfind]

theorem irv_singleton (parts : List (String × Participant)) (fuel : Nat) (c : String)
    (ballots : List (String × List String)) :
    irvLoop parts fuel [c] ballots = .leftover [c] := by
  cases fuel <;> simp [irvLoop]

theorem runGetStates_inflight (f : Nat) (fs : List Nat) :
    runGetStates ⟨none, some f⟩ fs = fs.map (fun _ => LoadAction.awaitPromise f) := by
  induction fs with
  | nil => rfl
  | cons g rest ih => simp [runGetStates, getStateStep, ih]

/-! ## Claim theorems -/

/-- C10: while the initial load is in flight, every `getState` caller after
the first awaits the same load promise: from a cold actor, a burst of
`getState` calls performs exactly one `startLoad` (the first call, which
publishes its promise) and every later call awaits that same promise, so no
duplicate storage read or independent default-state initialization can
occur. -/
theorem C10_theorem (f : Nat) (fs : List Nat) :
    runGetStates ⟨none, none⟩ (f :: fs) =
      LoadAction.startLoad f :: fs.map (fun _ => LoadAction.awaitPromise f) := by
  simp [runGetStates, getStateStep, runGetStates_inflight]

/-- C6 (amended): a reset whose sender id equals `hostId` increments
`roundNumber` by exactly 1, sets `revealed` to false, clears every
participant's vote and the persistent vote map, and restarts the round
clock; a reset whose sender id differs from `hostId` leaves the state
unchanged.  (The original claim fails only because a sender with no
participant id passes the `!==` guard when `hostId` is null.) -/
theorem C6_theorem (s : RoomState) (sender : Option String) (now : Nat) (r : Rand) :
    (sender = s.hostId →
      (handleReset s sender now r).roundNumber = s.roundNumber + 1 ∧
      (handleReset s sender now r).revealed = false ∧
      (handleReset s sender now r).votes = [] ∧
      (∀ e ∈ (handleReset s sender now r).participants, e.2.vote = none) ∧
      (handleReset s sender now r).stats.roundStartTime = now) ∧
    (sender ≠ s.hostId → handleReset s sender now r = s) := by
  simp only [handleReset]
  constructor
  · intro hs
    split
    · rename_i hneq
      exact absurd hs hneq
    · refine ⟨rfl, rfl, rfl, ?_, rfl⟩
      intro e he
      simp only [List.mem_map] at he
      obtain ⟨x, hx, rfl⟩ := he
      rfl
  · intro hs
    split
    · rfl
    · rename_i h2
      exact absurd (not_not.mp h2) hs

/-- C6 witness: in a room whose host is A, a host reset advances the round
and a reset from an unidentified socket is a no-op. -/
theorem C6_witness :
    ((handleReset hostRoom (some "A") 9 ⟨"m", "t"⟩).roundNumber = hostRoom.roundNumber + 1 ∧
      (handleReset hostRoom (some "A") 9 ⟨"m", "t"⟩).revealed = false ∧
      (handleReset hostRoom (some "A") 9 ⟨"m", "t"⟩).votes = [] ∧
      (∀ e ∈ (handleReset hostRoom (some "A") 9 ⟨"m", "t"⟩).participants, e.2.vote = none) ∧
      (handleReset hostRoom (some "A") 9 ⟨"m", "t"⟩).stats.roundStartTime = 9) ∧
    handleReset hostRoom none 9 ⟨"m", "t"⟩ = hostRoom :=
  ⟨(C6_theorem hostRoom (some "A") 9 ⟨"m", "t"⟩).1 (by decide),
   (C6_theorem hostRoom none 9 ⟨"m", "t"⟩).2 (by decide)⟩

/-- C6 counterexample: in a fresh room `hostId` is null, and a `reset` from
a socket with no participant id passes the `participantId !== state.hostId`
guard and mutates the state (`roundNumber` 1 → 2) — a reset from a sender
that is not the host does not leave the room unchanged. -/
theorem C6_counterexample :
    (initialState 0).hostId = none ∧
    (initialState 0).roundNumber = 1 ∧
    (handleReset (initialState 0) none 5 ⟨"m", "t"⟩).roundNumber = 2 ∧
    handleReset (initialState 0) none 5 ⟨"m", "t"⟩ ≠ initialState 0 := by
  refine ⟨rfl, rfl, rfl, ?_⟩
  intro h
  have := congrArg RoomState.roundNumber h
  simp [handleReset, initialState] at this

/-- C3: instant-runoff resolution — (i) any remaining candidate holding a
strict majority of the cast ballots' first choices wins immediately on that
tally; (ii) on the spec's example ballots {A:[X,Y], B:[X,Y], C:[Y,X]} over
candidates {X,Y}, X's first tally is 2 of 3 ballots (a strict majority) and
X wins; (iii) on a three-way 1-1-1 first-round tie among candidates with
distinct `joinedAt`, no candidate has a majority, the elimination scan picks
the most-recently-joined Z, and the loop then resolves; (iv) a field of one
candidate exits the loop at once — no majority check is applied — and, in
the full `resolveElection` run of `c3tieRoom` (a 1-1 tie, so elimination
reduced the field to one), X becomes host without ever having held a
majority. -/
theorem C3_theorem :
    (∀ (parts : List (String × Participant)) (fuel : Nat) (remaining : List String)
        (ballots : List (String × List String)) (c : String),
        1 < remaining.length → c ∈ remaining →
        ballots.length < 2 * tallyOf remaining ballots c →
        irvLoop parts (fuel + 1) remaining ballots = .winner c) ∧
    (tallyOf ["X", "Y"] c3ballotsMajority "X" = 2 ∧
      c3ballotsMajority.length = 3 ∧
      irvLoop c3parts 2 ["X", "Y"] c3ballotsMajority = .winner "X") ∧
    ((tallies ["X", "Y", "Z"] c3ballotsTie).all
        (fun e => !decide (c3ballotsTie.length < 2 * e.2)) = true ∧
      elimFold c3parts (tallies ["X", "Y", "Z"] c3ballotsTie) = some "Z" ∧
      irvLoop c3parts 3 ["X", "Y", "Z"] c3ballotsTie = .winner "X") ∧
    (∀ (parts : List (String × Participant)) (fuel : Nat) (c : String)
        (ballots : List (String × List String)),
        irvLoop parts fuel [c] ballots = .leftover [c]) ∧
    ((tallies ["X", "Y"] [("X", ["X", "Y"]), ("Y", ["Y", "X"])]).all
        (fun e => !decide (2 < 2 * e.2)) = true ∧
      c3tieRoom.hostId = some "X" ∧ c3tieRoom.hostElection = none) :=
  ⟨fun parts fuel remaining ballots c h1 h2 h3 =>
      irv_majority parts fuel remaining ballots c h1 h2 h3,
   by decide, by decide,
   fun parts fuel c ballots => irv_singleton parts fuel c ballots,
   by decide⟩

/-- C3 witness: the majority lemma applied to the spec's example ballots,
and the singleton-field exit applied to a lone candidate. -/
theorem C3_witness :
    irvLoop c3parts 5 ["X", "Y"] c3ballotsMajority = .winner "X" ∧
    irvLoop c3parts 0 ["W"] c3ballotsMajority = .leftover ["W"] :=
  ⟨C3_theorem.1 c3parts 4 ["X", "Y"] c3ballotsMajority "X" (by decide) (by decide) (by decide),
   C3_theorem.2.2.2.1 c3parts 0 "W" c3ballotsMajority⟩

/-- C1 (amended): `revealed` is only ever set (false → true) at a moment
when the resulting state has at least one active participant and every
active participant holds a non-null vote.  The claimed biconditional over
all reachable states is false (see the counterexample): a join after a
reveal leaves `revealed` true with an unvoted active participant, and a
leave by the last non-voter leaves an all-voted state unrevealed. -/
theorem C1_theorem (s : RoomState) (m : Msg) (h0 : s.revealed = false)
    (h1 : (handleMessage s m).revealed = true) :
    (activeParticipants (handleMessage s m)).all (fun p => p.vote.isSome) = true ∧
    0 < (activeParticipants (handleMessage s m)).length := by
  cases m with
  | join a b c name env =>
      simp only [handleMessage] at h1
      rw [(handleJoin_frame s a b c name env).1, h0] at h1
      cases h1
  | vote sender v now vm renv =>
      exact handleVote_reveal_cause s sender v now vm renv h0 h1
  | reset sender now r =>
      simp only [handleMessage] at h1
      rcases (handleReset_frame s sender now r).2.2 with h | h
      · rw [h] at h1
        cases h1
      · rw [h, h0] at h1
        cases h1
  | chat sender text now msgId =>
      simp only [handleMessage] at h1
      rw [(handleChat_frame s sender text now msgId).1, h0] at h1
      cases h1
  | kick sender target now kid renv =>
      exact handleKick_reveal_cause s sender target now kid renv h0 h1
  | leave sender now env =>
      simp only [handleMessage] at h1
      rw [handleLeave_revealed s sender now env, h0] at h1
      cases h1
  | hostVote sender rankings now wm pm =>
      simp only [handleMessage] at h1
      rw [handleHostVote_revealed s sender rankings now wm pm, h0] at h1
      cases h1
  | burn sender now =>
      revert h1
      simp only [handleMessage, handleBurn]
      split
      · intro h1
        rw [h0] at h1
        cases h1
      · intro h1
        simp [initialState] at h1
  | getStats =>
      simp only [handleMessage] at h1
      rw [h0] at h1
      cases h1
  | ping =>
      simp only [handleMessage] at h1
      rw [h0] at h1
      cases h1

/-- C1 witness: A alone votes in `hostRoom`; the transition to revealed
happens with one active participant whose vote is non-null. -/
theorem C1_witness :
    (activeParticipants (handleMessage hostRoom (mkVote "A" "5" 1))).all
        (fun p => p.vote.isSome) = true ∧
    0 < (activeParticipants (handleMessage hostRoom (mkVote "A" "5" 1))).length :=
  C1_theorem hostRoom (mkVote "A" "5" 1) (by decide) (by decide)

/-- C1 counterexample: after A votes alone the round reveals; a fresh join
by B is then reachable and leaves `revealed = true` while active participant
B has a null vote — the "revealed ⇔ all active voted" biconditional fails on
a reachable state. -/
theorem C1_counterexample :
    Reachable c1state ∧ c1state.revealed = true ∧
    ¬((activeParticipants c1state).all (fun p => p.vote.isSome) = true) :=
  ⟨⟨0, [mkJoin "A" 0, mkVote "A" "5" 1, mkJoin "B" 2], rfl⟩, by decide, by decide⟩

/-- C2 (amended): every operation other than `join` preserves the mutual
exclusion of `hostId` and `hostElection`.  A `join` arriving while an
election is open (so `hostId` is null) violates it: the joiner is assigned
`hostId` while `hostElection` stays non-null (see the counterexample). -/
theorem C2_theorem (s : RoomState) (m : Msg) (hm : m.isJoin = false)
    (h : HostExcl s) : HostExcl (handleMessage s m) := by
  cases m with
  | join a b c name env => simp [Msg.isJoin] at hm
  | vote sender v now vm renv =>
      have hf := handleVote_frame s sender v now vm renv
      rcases h with h1 | h2
      · exact Or.inl (hf.1.trans h1)
      · exact Or.inr (hf.2.trans h2)
  | reset sender now r =>
      have hf := handleReset_frame s sender now r
      rcases h with h1 | h2
      · exact Or.inl (hf.1.trans h1)
      · exact Or.inr (hf.2.1.trans h2)
  | chat sender text now msgId =>
      have hf := handleChat_frame s sender text now msgId
      rcases h with h1 | h2
      · exact Or.inl (hf.2.1.trans h1)
      · exact Or.inr (hf.2.2.1.trans h2)
  | kick sender target now kid renv =>
      have hf := handleKick_frame s sender target now kid renv
      rcases h with h1 | h2
      · exact Or.inl (hf.1.trans h1)
      · exact Or.inr (hf.2.trans h2)
  | leave sender now env => exact handleLeave_excl s sender now env h
  | hostVote sender rankings now wm pm =>
      exact handleHostVote_excl s sender rankings now wm pm h
  | burn sender now =>
      simp only [handleMessage, handleBurn]
      split
      · exact h
      · exact Or.inl rfl
  | getStats => exact h
  | ping => exact h

/-- C2 witness: the host leaving `hostRoom` (a non-join operation) keeps the
exclusion invariant. -/
theorem C2_witness : HostExcl (handleMessage hostRoom (mkLeave "A" 1)) :=
  C2_theorem hostRoom (mkLeave "A" 1) (by decide) (Or.inr (by decide))

/-- C2 counterexample: A, B, C join; host A leaves, opening an election
between B and C; D joins while the election is open.  The reachable result
has `hostId = some D` and a non-null `hostElection` simultaneously. -/
theorem C2_counterexample :
    Reachable c2state ∧ c2state.hostId = some "D" ∧ c2state.hostElection ≠ none :=
  ⟨⟨0, [mkJoin "A" 0, mkJoin "B" 1, mkJoin "C" 2, mkLeave "A" 3, mkJoin "D" 4], rfl⟩,
   by decide, by decide⟩

/-- C4 (amended): after a `vote` that is accepted (known sender, existing
participant, unrevealed round) or a `kick` that is accepted (host sender,
valid non-self target), the engine re-evaluates and reveals whenever every
remaining active participant has a non-null vote and at least one is active;
a `leave` performs no such re-evaluation — it never changes `revealed`, so
the departure of the last non-voter via `leave` leaves the round unrevealed
(see the counterexample), unlike via `kick`. -/
theorem C4_theorem :
    (∀ (s : RoomState) (pid : String) (p : Participant) (v : String) (now : Nat)
        (vm : Rand) (renv : RevealEnv),
        rlookup s.participants pid = some p → s.revealed = false →
        (activeParticipants (handleVote s (some pid) v now vm renv)).all
            (fun q => q.vote.isSome) = true →
        0 < (activeParticipants (handleVote s (some pid) v now vm renv)).length →
        (handleVote s (some pid) v now vm renv).revealed = true) ∧
    (∀ (s : RoomState) (h target : String) (tp : Participant) (now : Nat)
        (kid : String) (renv : RevealEnv),
        s.hostId = some h → target ≠ "" → h ≠ target →
        rlookup s.participants target = some tp → s.revealed = false →
        (activeParticipants (handleKick s (some h) target now kid renv)).all
            (fun q => q.vote.isSome) = true →
        0 < (activeParticipants (handleKick s (some h) target now kid renv)).length →
        (handleKick s (some h) target now kid renv).revealed = true) ∧
    (∀ (s : RoomState) (sender : Option String) (now : Nat) (env : LeaveEnv),
        (handleLeave s sender now env).revealed = s.revealed) := by
  refine ⟨?_, ?_, fun s sender now env => handleLeave_revealed s sender now env⟩
  · intro s pid p v now vm renv hp hrev hall hlen
    have he : handleVote s (some pid) v now vm renv
        = checkAndReveal (votePre s pid p v now vm) renv now := by
      simp [handleVote, hp, hrev]
    rw [he] at hall hlen ⊢
    have hap : activeParticipants (checkAndReveal (votePre s pid p v now vm) renv now)
        = activeParticipants (votePre s pid p v now vm) := by
      unfold activeParticipants
      rw [(checkAndReveal_frame _ _ _).1]
    rw [hap] at hall hlen
    exact checkAndReveal_reveals _ renv now
      ((votePre_frame s pid p v now vm).1.trans hrev) hall hlen
  · intro s h target tp now kid renv hs ht hn hp hrev hall hlen
    revert hall hlen
    simp only [handleKick]
    rw [if_neg (by simp [hs]), if_neg (by simp [ht, hn]), hp]
    simp only
    intro hall hlen
    have hap : ∀ t : RoomState,
        activeParticipants (checkAndReveal t renv now) = activeParticipants t := by
      intro t
      unfold activeParticipants
      rw [(checkAndReveal_frame t renv now).1]
    rw [hap] at hall hlen
    exact checkAndReveal_reveals _ renv now (by exact hrev) hall hlen

/-- C4 witness: in `voteRoom` (A voted, B did not), B voting reveals, and
kicking B reveals. -/
theorem C4_witness :
    (handleVote voteRoom (some "B") "8" 3 ⟨"vm", "t"⟩ rEnv).revealed = true ∧
    (handleKick voteRoom (some "A") "B" 3 "km" rEnv).revealed = true ∧
    (handleLeave voteRoom (some "B") 3 lEnv).revealed = voteRoom.revealed :=
  ⟨C4_theorem.1 voteRoom "B" ⟨"B", "B", "🐶", "#FF6B6B", none, false, 1⟩ "8" 3
      ⟨"vm", "t"⟩ rEnv (by decide) (by decide) (by decide) (by decide),
   C4_theorem.2.1 voteRoom "A" "B" ⟨"B", "B", "🐶", "#FF6B6B", none, false, 1⟩ 3
      "km" rEnv (by decide) (by decide) (by decide) (by decide) (by decide)
      (by decide) (by decide),
   C4_theorem.2.2 voteRoom (some "B") 3 lEnv⟩

/-- C4 counterexample: A and B join, A votes, then B — the only non-voter —
leaves.  The reachable result has every active participant voted (and one
active participant), yet `revealed` is still false: `leave` did not trigger
the re-evaluation the claim asserts. -/
theorem C4_counterexample :
    Reachable c4state ∧ c4state.revealed = false ∧
    (activeParticipants c4state).all (fun p => p.vote.isSome) = true ∧
    0 < (activeParticipants c4state).length :=
  ⟨⟨0, [mkJoin "A" 0, mkJoin "B" 1, mkVote "A" "5" 2, mkLeave "B" 3], rfl⟩,
   by decide, by decide, by decide⟩

/-- C5 (amended): resolution itself filters: the effective candidate set
`resolveElection` computes is the stored candidates restricted to active
participants, and first-choice lookup only ever selects an id from that set
— but inactive ids are not purged from the stored data beforehand: kicked
candidates stay in `HostElection.candidates`, and a departed candidate's id
remains inside other voters' stored ballots at the moment resolution is
attempted (see the counterexample). -/
theorem C5_theorem (s : RoomState) (e : HostElection) (_he : s.hostElection = some e) :
    (∀ cid ∈ resolveRemaining s e,
        ∃ p, rlookup s.participants cid = some p ∧ p.left = false) ∧
    (∀ (r : List String) (cid : String),
        firstChoice (resolveRemaining s e) r = some cid →
        cid ∈ resolveRemaining s e) := by
  constructor
  · intro cid hc
    have hmem := List.mem_filter.mp hc
    have h2 := hmem.2
    cases hx : rlookup s.participants cid with
    | none =>
        rw [hx] at h2
        simp at h2
    | some p =>
        rw [hx] at h2
        simp at h2
        exact ⟨p, rfl, h2⟩
  · intro r cid hf
    unfold firstChoice at hf
    have hp := List.find?_some hf
    simpa using hp

/-- C5 witness: the amended filtering facts applied at the very state on
which the C5 counterexample's resolution is attempted. -/
theorem C5_witness :
    c5atResolve.hostElection =
      some ⟨["B", "C"], [("B", ["D", "C", "B"]), ("C", ["C", "B"])], 4⟩ ∧
    ((∀ cid ∈ resolveRemaining c5atResolve
          ⟨["B", "C"], [("B", ["D", "C", "B"]), ("C", ["C", "B"])], 4⟩,
        ∃ p, rlookup c5atResolve.participants cid = some p ∧ p.left = false) ∧
      (∀ (r : List String) (cid : String),
        firstChoice (resolveRemaining c5atResolve
            ⟨["B", "C"], [("B", ["D", "C", "B"]), ("C", ["C", "B"])], 4⟩) r = some cid →
        cid ∈ resolveRemaining c5atResolve
            ⟨["B", "C"], [("B", ["D", "C", "B"]), ("C", ["C", "B"])], 4⟩)) :=
  ⟨by decide,
   C5_theorem c5atResolve ⟨["B", "C"], [("B", ["D", "C", "B"]), ("C", ["C", "B"])], 4⟩
     (by decide)⟩

/-- C5 counterexample: candidate D leaves mid-election after B's ballot
[D, C, B] is cast; when C's ballot arrives, `recordHostVote` finds all
active voters balloted and attempts resolution on `c5atResolve` — whose
stored ballot for B still contains the id of the inactive candidate D.  So
inactive candidates are not removed from every cast ballot before
resolution is attempted. -/
theorem C5_counterexample :
    Reachable c5pre ∧
    handleHostVote c5pre (some "C") ["C", "B"] 7 ⟨"wm", "winner message"⟩
        ⟨"pm", "promote message"⟩ =
      resolveElection c5atResolve 7 ⟨"wm", "winner message"⟩ ⟨"pm", "promote message"⟩ ∧
    allBallotsIn c5atResolve = true ∧
    c5atResolve.hostElection =
      some ⟨["B", "C"], [("B", ["D", "C", "B"]), ("C", ["C", "B"])], 4⟩ ∧
    (rlookup c5atResolve.participants "D").map (fun p => p.left) = some true :=
  ⟨⟨0, [mkJoin "A" 0, mkJoin "B" 1, mkJoin "C" 2, mkJoin "D" 3, mkLeave "A" 4,
        mkHostVote "B" ["D", "C", "B"] 5, mkLeave "D" 6], rfl⟩,
   by decide, by decide, by decide, by decide⟩

/-- C7: (general part) a vote from a participant who already holds the same
vote value leaves every participant's first-vote counters — `totalVotes`,
`participatedRounds`, `voteTimesMs` — unchanged and only (re)stores the vote
value; (concrete part) in the scenario where A votes 5, changes to ?, and B
votes 8: before the reveal A's entry has one counted vote and no
classification, and at the reveal A is classified from the final vote ? (one
chaos vote, no numeric sample) while B gets the numeric sample 8 and the
consensus-match bookkeeping — classification and consensus happen at reveal
time, on final votes. -/
theorem C7_theorem :
    (∀ (s : RoomState) (pid : String) (p : Participant) (v : String) (now : Nat)
        (vm : Rand) (renv : RevealEnv),
        rlookup s.participants pid = some p → p.vote = some v → s.revealed = false →
        ((∀ q, cnt3 (handleVote s (some pid) v now vm renv).stats.participantStats q =
            cnt3 s.stats.participantStats q) ∧
         (rlookup (handleVote s (some pid) v now vm renv).participants pid).map
            (fun q => q.vote) = some (some v))) ∧
    rlookup c7mid.stats.participantStats "A" = some ⟨1, [], 0, [2], 0, 1⟩ ∧
    c7mid.revealed = false ∧
    rlookup c7state.stats.participantStats "A" = some ⟨1, [], 1, [2], 0, 1⟩ ∧
    rlookup c7state.stats.participantStats "B" = some ⟨1, [8], 0, [4], 1, 1⟩ ∧
    c7state.revealed = true := by
  refine ⟨?_, by decide, by decide, by decide, by decide, by decide⟩
  intro s pid p v now vm renv hp hv hrev
  have he : handleVote s (some pid) v now vm renv
      = checkAndReveal (votePre s pid p v now vm) renv now := by
    simp [handleVote, hp, hrev]
  constructor
  · intro q
    rw [he, cnt3_checkAndReveal]
    simp [votePre, hv]
  · rw [he, (checkAndReveal_frame _ _ _).1,
      (votePre_frame s pid p v now vm).2.2.2, rlookup_rset]
    simp

/-- C7 witness: re-sending A's vote 5 in `voteRoom` leaves every first-vote
counter unchanged and keeps the stored value 5. -/
theorem C7_witness :
    (∀ q, cnt3 (handleVote voteRoom (some "A") "5" 9 ⟨"vm", "t"⟩ rEnv).stats.participantStats q =
        cnt3 voteRoom.stats.participantStats q) ∧
    (rlookup (handleVote voteRoom (some "A") "5" 9 ⟨"vm", "t"⟩ rEnv).participants "A").map
        (fun q => q.vote) = some (some "5") :=
  C7_theorem.1 voteRoom "A" aRec "5" 9 ⟨"vm", "t"⟩ rEnv (by decide) (by decide) (by decide)

set_option maxRecDepth 100000 in
/-- C8: (i) every reachable room state stores at most 100 chat messages;
(ii) pushing 150 messages through the push-and-cap idiom leaves exactly the
most recent 100 (messages 50…149), the oldest dropped first; (iii) a fresh
joiner of a room holding that capped log is sent exactly the most recent 50
stored messages (messages 100…149); (iv) when fewer than 50 messages are
stored, the joiner receives all of them. -/
theorem C8_theorem :
    (∀ s : RoomState, Reachable s → s.chat.length ≤ 100) ∧
    c8stored = c8log.drop 50 ∧
    c8stored.length = 100 ∧
    (joinResponse c8room none none none "N" (jEnv "N" 200)).chat = c8log.drop 100 ∧
    (c8log.drop 100).length = 50 ∧
    (∀ l : List ChatMessage, l.length ≤ 50 → takeLast 50 l = l) :=
  ⟨fun s h => reachable_chat_le s h, by decide, by decide, by decide, by decide,
   fun l h => takeLast_all 50 l h⟩

/-- C8 witness: the cap applied to the reachable state `c1state`, and the
small-log bootstrap rule applied to an empty log. -/
theorem C8_witness :
    c1state.chat.length ≤ 100 ∧ takeLast 50 ([] : List ChatMessage) = [] :=
  ⟨C8_theorem.1 c1state ⟨0, [mkJoin "A" 0, mkVote "A" "5" 1, mkJoin "B" 2], rfl⟩,
   C8_theorem.2.2.2.2.2 [] (by decide)⟩

/-- C9: the HTTP GET snapshot is computed without mutating the state and
carries every stored participant record verbatim — left participants
included, raw vote values even while `revealed` is false — whereas the
WebSocket `joined` bootstrap list contains only active participants and
masks another participant's unrevealed truthy vote as `'hidden'`. -/
theorem C9_theorem (s : RoomState) (viewerId : String) (p : Participant) :
    (httpGet s).1 = s ∧
    (httpGet s).2.revealed = s.revealed ∧
    (httpGet s).2.roundNumber = s.roundNumber ∧
    (p ∈ rvalues s.participants → p ∈ (httpGet s).2.participants) ∧
    (∀ q ∈ participantsForClient s viewerId, q.left = false) ∧
    (p ∈ rvalues s.participants → p.left = false →
      { p with vote := maskVote s.revealed viewerId p } ∈ participantsForClient s viewerId) ∧
    (s.revealed = false → p.id ≠ viewerId → (jsStr p.vote).isSome = true →
      maskVote s.revealed viewerId p = some "hidden") := by
  refine ⟨rfl, rfl, rfl, fun h => h, ?_, ?_, ?_⟩
  · intro q hq
    unfold participantsForClient at hq
    obtain ⟨x, hx, rfl⟩ := List.mem_map.mp hq
    have hx2 := (List.mem_filter.mp hx).2
    simpa using hx2
  · intro hmem hleft
    unfold participantsForClient activeParticipants
    apply List.mem_map_of_mem
    exact List.mem_filter.mpr ⟨hmem, by simp [hleft]⟩
  · intro hrev hid hv
    unfold maskVote
    rw [hrev]
    simp [hid, hv]

/-- C9 witness: in the unrevealed `voteRoom`, the GET snapshot carries A's
raw vote 5 while the bootstrap for viewer B masks it as hidden; in
`c4state`, the departed B appears in the GET snapshot with `left = true`. -/
theorem C9_witness :
    aRec ∈ (httpGet voteRoom).2.participants ∧
    aRec.vote = some "5" ∧
    maskVote voteRoom.revealed "B" aRec = some "hidden" ∧
    bLeftRec ∈ (httpGet c4state).2.participants ∧
    bLeftRec.left = true ∧
    (∀ q ∈ participantsForClient c4state "A", q.left = false) :=
  ⟨(C9_theorem voteRoom "B" aRec).2.2.2.1 (by decide), by decide,
   (C9_theorem voteRoom "B" aRec).2.2.2.2.2.2 (by decide) (by decide) (by decide),
   (C9_theorem c4state "A" bLeftRec).2.2.2.1 (by decide), by decide,
   (C9_theorem c4state "A" bLeftRec).2.2.2.2.1⟩

end Room
